import Mathlib

/-
  Verification of the ircam-viewer thermal camera viewer.

  Shallow embedding of the per-frame thermal transform (src/sdl.c), the
  fixed-point temperature conversion chain (src/sdl.c), the input handlers
  for scale stepping and crosshair movement (src/sdl.c, sdl_poll_one), and
  the live-capture session loop (src/main.c, run_v4l2 together with
  src/v4l2.c, v4l2_get_buffer / v4l2_put_buffer).

  Machine integers are modelled as ℕ / ℤ with explicit reduction modulo the
  relevant power of two exactly where the C code truncates (bitfield stores,
  uint8_t / uint16_t assignments).  C expressions that mix unsigned fields
  with literals are evaluated over ℤ where the C integer promotion rules
  make the computation signed.
-/

namespace Ircam

/-! ### Normalization (paint_frame, src/sdl.c lines 669-699)

The C code computes, for resolved scale `min < max`:

    multinv = (1UL << 24) / ((uint32_t)max - min);
    if (raw <= min)       pval = 0;
    else if (raw >= max)  pval = 255;
    else                  pval = (multinv * (raw - min)) >> 16;

`pval` is a `uint8_t`, so the final assignment reduces modulo 256. -/

/-- `(1UL << 24) / ((uint32_t)max - min)`, the per-frame multiplicative
inverse from `paint_frame`. -/
def multinv (minv maxv : ℕ) : ℕ :=
  2 ^ 24 / (maxv - minv)

/-- The normalized 8-bit intensity of one raw sample, from `paint_frame`.
The `% 256` models the store into the `uint8_t` variable `pval`. -/
def pval (minv maxv raw : ℕ) : ℕ :=
  if raw ≤ minv then 0
  else if maxv ≤ raw then 255
  else ((multinv minv maxv * (raw - minv)) >>> 16) % 256

/-- C1: for every frame transformed with resolved scale `min < max`, a raw
sample `≤ min` maps to exactly 0, a raw sample `≥ max` maps to exactly 255,
and an intermediate sample maps to `(floor(2^24/(max-min)) * (raw-min)) >> 16`,
which is always `< 256`, so the `uint8_t` store truncates nothing; with
`min = 1000`, `max = 2000`: sample 1000 ↦ 0, sample 2000 ↦ 255,
sample 1500 ↦ 127. -/
theorem c1_normalization (minv maxv raw : ℕ) (hmax : maxv < 65536)
    (hlt : minv < maxv) :
    (raw ≤ minv → pval minv maxv raw = 0) ∧
    (maxv ≤ raw → pval minv maxv raw = 255) ∧
    (minv < raw → raw < maxv →
      multinv minv maxv * (raw - minv) / 2 ^ 16 < 256 ∧
      pval minv maxv raw = multinv minv maxv * (raw - minv) / 2 ^ 16) ∧
    (pval 1000 2000 1000 = 0 ∧ pval 1000 2000 2000 = 255 ∧
      pval 1000 2000 1500 = 127) := by
  refine ⟨?_, ?_, ?_, by decide⟩
  · intro h
    simp [pval, h]
  · intro h
    have h' : ¬ raw ≤ minv := by omega
    simp [pval, h', h]
  · intro h1 h2
    have hmul : multinv minv maxv * (raw - minv) < 2 ^ 24 := by
      have h3 : raw - minv ≤ maxv - minv - 1 := by omega
      have h4 : multinv minv maxv * (raw - minv) ≤
          multinv minv maxv * (maxv - minv - 1) :=
        Nat.mul_le_mul_left _ h3
      have h5 : multinv minv maxv * (maxv - minv) ≤ 2 ^ 24 :=
        Nat.div_mul_le_self _ _
      have h6 : 1 ≤ multinv minv maxv := by
        apply (Nat.one_le_div_iff (by omega)).mpr
        omega
      have h7 : multinv minv maxv * (maxv - minv - 1) + multinv minv maxv =
          multinv minv maxv * (maxv - minv) := by
        rw [← Nat.mul_succ]
        congr 1
        omega
      omega
    have hlt256 : multinv minv maxv * (raw - minv) / 2 ^ 16 < 256 := by
      apply Nat.div_lt_of_lt_mul
      omega
    refine ⟨hlt256, ?_⟩
    have hn1 : ¬ raw ≤ minv := by omega
    have hn2 : ¬ maxv ≤ raw := by omega
    simp only [pval, if_neg hn1, if_neg hn2, Nat.shiftRight_eq_div_pow]
    rw [Nat.mod_eq_of_lt hlt256]

/-- C1 witness: the intermediate-sample clause of `c1_normalization`
instantiated at `min = 1000`, `max = 2000`, `raw = 1500`. -/
theorem c1_normalization_witness :
    multinv 1000 2000 * (1500 - 1000) / 2 ^ 16 < 256 ∧
    pval 1000 2000 1500 = multinv 1000 2000 * (1500 - 1000) / 2 ^ 16 :=
  (c1_normalization 1000 2000 1500 (by decide) (by decide)).2.2.1
    (by decide) (by decide)

/-! ### Scale stepping (sdl_poll_one, src/sdl.c lines 447-473)

The C code, e.g. for the W key (increment `scale_max`):

    if ((c->scale_max || c->scale_min) && !(c->scale_max + 8 < c->scale_max))
        c->scale_max += 8;

`scale_max` and `scale_min` are `uint16_t`.  In the guard, `c->scale_max + 8`
is computed after promotion to `int`, so the comparison is signed and can
never be true; the compound assignment then truncates modulo 2^16. -/

/-- W key: step `scale_max` up by 8.  The guard is evaluated over ℤ because
the C operands are promoted to `int`; the store reduces mod 2^16. -/
def stepScaleMaxUp (smin smax : ℕ) : ℕ :=
  if (smax ≠ 0 ∨ smin ≠ 0) ∧ ¬((smax : ℤ) + 8 < (smax : ℤ)) then
    (smax + 8) % 65536
  else smax

/-- S key: step `scale_max` down by 8. -/
def stepScaleMaxDown (smin smax : ℕ) : ℕ :=
  if (smax ≠ 0 ∨ smin ≠ 0) ∧ ¬((smax : ℤ) - 8 > (smax : ℤ)) then
    (((smax : ℤ) - 8) % 65536).toNat
  else smax

/-- Q key: step `scale_min` up by 8. -/
def stepScaleMinUp (smin smax : ℕ) : ℕ :=
  if (smax ≠ 0 ∨ smin ≠ 0) ∧ ¬((smin : ℤ) + 8 < (smin : ℤ)) then
    (smin + 8) % 65536
  else smin

/-- A key: step `scale_min` down by 8. -/
def stepScaleMinDown (smin smax : ℕ) : ℕ :=
  if (smax ≠ 0 ∨ smin ≠ 0) ∧ ¬((smin : ℤ) - 8 > (smin : ℤ)) then
    (((smin : ℤ) - 8) % 65536).toNat
  else smin

/-- C4: the scale-step operations do NOT saturate.  The overflow guards
compare `int`-promoted values, so they never fire: with manual scale engaged,
incrementing `scale_max = 65535` wraps to 7 (a smaller value), and
decrementing `scale_min = 0` wraps to 65528 (a larger value), refuting the
claimed saturation at both ends. -/
theorem c4_scale_step_wraps :
    stepScaleMaxUp 0 65535 = 7 ∧ stepScaleMaxUp 0 65535 < 65535 ∧
    stepScaleMinDown 0 1000 = 65528 ∧ stepScaleMinDown 0 1000 > 0 := by
  refine ⟨?_, ?_, ?_, ?_⟩ <;> decide

/-! ### Crosshair sample offset (paint_frame, src/sdl.c lines 612-618)

    i = c->crosshair.y * c->desc->width * 2 + c->crosshair.x * 2;
    if (c->rotate)
        i = c->desc->width * c->desc->height * 2 - i;
    ptemp = data[i] | data[i + 1] << 8;
-/

/-- The byte offset into the raw frame from which `paint_frame` reads the
crosshair temperature sample. -/
def crosshairSampleOffset (w h x y : ℕ) (rot : Bool) : ℕ :=
  let i := y * w * 2 + x * 2
  if rot then w * h * 2 - i else i

/-- C7: with rotation enabled the crosshair sample offset is NOT the claimed
mirrored pixel index `w*h - 1 - (y*w + x)`.  At crosshair (0,0) on the
256×192 camera the code reads bytes 98304 and 98305, but the raw frame is
`w*h*2 = 98304` bytes (indices 0..98303), so the access is out of bounds;
the claimed mirrored pixel would be byte offset `2*(w*h - 1) = 98302`. -/
theorem c7_crosshair_mirror_out_of_bounds :
    crosshairSampleOffset 256 192 0 0 true = 98304 ∧
    ¬ crosshairSampleOffset 256 192 0 0 true + 1 < 256 * 192 * 2 ∧
    crosshairSampleOffset 256 192 0 0 true ≠ 2 * (256 * 192 - 1 - 0) := by
  refine ⟨?_, ?_, ?_⟩ <;> decide

/-! ### Live-capture session loop (run_v4l2, src/main.c lines 153-212)

One iteration of `while (!stop) { ... }`, in source order:

    if (v4l2_get_buffer(dev, &buf)) {
        if (errno == EINTR) continue;
        err(1, "v4l2 failure");                  -- fatal
    }
    if (buf.bytesused != desc->iskip + desc->isize) errx(1, ...);  -- fatal
    data = v4l2_buf_mmap(dev, &buf) + desc->iskip;
    if (record) if (lavc_encode(...)) err(1, ...);                 -- fatal
    if (remote_socket) { if (fwrite(...) != isize) goto out; }     -- leave loop
    if (ctx) switch (paint_frame(...)) { case QUIT_PROGRAM: goto out; ... }
    v4l2_put_buffer(dev, &buf);

Each iteration is driven by an environment holding everything the body
observes from the outside world that iteration (the stop flag, the result
of `v4l2_get_buffer` with its `errno`, the dequeued slot index and byte
count, whether the recorder / network socket / renderer are attached,
whether their writes fail, and the `paint_frame` return value).  The body
emits a trace of ownership / sink events. -/

/-- Value of `errno` for an interrupted system call. -/
def EINTR : ℕ := 4

/-- Return value of `paint_frame`, handled by the `switch` in `run_v4l2`. -/
inductive PaintAct
  | nothing
  | toggleY16
  | togglePause
  | quit
deriving DecidableEq

/-- Observable events of one live-capture loop iteration.  `get i` / `put i`
are a successful `v4l2_get_buffer` / the matching `v4l2_put_buffer` on slot
`i`; `record`, `send`, `paint` are the frame reaching the raw recorder, the
network sink, and the transform (`paint_frame`). -/
inductive Ev
  | get (i : ℕ)
  | record
  | send
  | paint
  | put (i : ℕ)
deriving DecidableEq

/-- How a run of the loop ends. -/
inductive Outcome
  | fatal
  | quit
  | stopped
deriving DecidableEq

/-- Everything one iteration of the `run_v4l2` loop observes from outside. -/
structure IterEnv where
  stop : Bool
  getErr : Option ℕ
  bufIndex : ℕ
  bytesused : ℕ
  recordOn : Bool
  recordFail : Bool
  socketOn : Bool
  sendShort : Bool
  renderOn : Bool
  paintAct : PaintAct
deriving DecidableEq

/-- One iteration of the `run_v4l2` loop body: the events it emits and,
if it leaves the loop, how.  `none` means the loop continues. -/
def iterStep (expected : ℕ) (e : IterEnv) : List Ev × Option Outcome :=
  if e.stop then ([], some .stopped)
  else
    match e.getErr with
    | some errv => if errv = EINTR then ([], none) else ([], some .fatal)
    | none =>
      if e.bytesused ≠ expected then ([.get e.bufIndex], some .fatal)
      else if e.recordOn && e.recordFail then
        ([.get e.bufIndex, .record], some .fatal)
      else
        let recEv : List Ev := if e.recordOn then [.record] else []
        if e.socketOn && e.sendShort then
          ([.get e.bufIndex] ++ recEv ++ [.send], some .quit)
        else
          let sendEv : List Ev := if e.socketOn then [.send] else []
          if e.renderOn then
            if e.paintAct = .quit then
              ([.get e.bufIndex] ++ recEv ++ sendEv ++ [.paint], some .quit)
            else
              ([.get e.bufIndex] ++ recEv ++ sendEv ++ [.paint, .put e.bufIndex],
                none)
          else ([.get e.bufIndex] ++ recEv ++ sendEv ++ [.put e.bufIndex], none)

/-- The whole `while (!stop)` loop over a finite schedule of iteration
environments, concatenating the emitted events.  An exhausted schedule
models the stop flag being observed set. -/
def runLoop (expected : ℕ) : List IterEnv → List Ev × Outcome
  | [] => ([], .stopped)
  | e :: rest =>
    match iterStep expected e with
    | (t, some o) => (t, o)
    | (t, none) =>
      let r := runLoop expected rest
      (t ++ r.1, r.2)

/-- Ownership checker for an event trace: the state is the slot currently
owned by the application (`none` = all slots kernel-owned).  It rejects a
second acquire while a slot is owned, a release without an owned slot, and
a release of a different slot than the owned one. -/
def ownedOk : Option ℕ → List Ev → Bool
  | _, [] => true
  | none, .get i :: r => ownedOk (some i) r
  | some _, .get _ :: _ => false
  | some i, .put j :: r => i == j && ownedOk none r
  | none, .put _ :: _ => false
  | st, .record :: r => ownedOk st r
  | st, .send :: r => ownedOk st r
  | st, .paint :: r => ownedOk st r

/-- Helper: the trace of any single loop iteration passes the ownership
checker on its own (a terminating iteration may leave its slot owned, which
the checker accepts at end of trace). -/
theorem iterStep_trace_closed (expected : ℕ) (e : IterEnv) :
    ownedOk none (iterStep expected e).1 = true := by
  obtain ⟨stop, getErr, i, bytes, recOn, recFail, sockOn, sendSh, renOn,
    pAct⟩ := e
  cases stop with
  | true => rfl
  | false =>
    cases getErr with
    | some errv =>
      by_cases he : errv = EINTR <;> simp [iterStep, he, ownedOk]
    | none =>
      by_cases hb : bytes = expected
      · subst hb
        cases recOn <;> cases recFail <;> cases sockOn <;> cases sendSh <;>
          cases renOn <;> cases pAct <;> simp [iterStep, ownedOk]
      · simp [iterStep, hb, ownedOk]

/-- Helper: the trace of a loop iteration that continues the loop is
ownership-balanced: the checker passes through it unchanged. -/
theorem iterStep_cont_balanced (expected : ℕ) (e : IterEnv)
    (h : (iterStep expected e).2 = none) (s : List Ev) :
    ownedOk none ((iterStep expected e).1 ++ s) = ownedOk none s := by
  obtain ⟨stop, getErr, i, bytes, recOn, recFail, sockOn, sendSh, renOn,
    pAct⟩ := e
  cases stop with
  | true => exact absurd h (by simp [iterStep])
  | false =>
    cases getErr with
    | some errv =>
      by_cases he : errv = EINTR
      · simp [iterStep, he]
      · exact absurd h (by simp [iterStep, he])
    | none =>
      by_cases hb : bytes = expected
      · subst hb
        cases recOn <;> cases recFail <;> cases sockOn <;> cases sendSh <;>
          cases renOn <;> cases pAct <;> simp_all [iterStep, ownedOk]
      · exact absurd h (by simp [iterStep, hb])

/-- C5: in the single-threaded live-capture loop at most one buffer slot is
ever application-owned: for every schedule, the event trace of `runLoop`
passes the ownership checker started with no slot owned, i.e. every
successful `v4l2_get_buffer` is matched by exactly one `v4l2_put_buffer` on
that same slot before the next `v4l2_get_buffer`. -/
theorem c5_buffer_ownership (expected : ℕ) (envs : List IterEnv) :
    ownedOk none (runLoop expected envs).1 = true := by
  induction envs with
  | nil => rfl
  | cons e rest ih =>
    simp only [runLoop]
    rcases hs : iterStep expected e with ⟨t, o⟩
    cases o with
    | some o' =>
      have h := iterStep_trace_closed expected e
      rw [hs] at h
      exact h
    | none =>
      have h := iterStep_cont_balanced expected e (by rw [hs])
        (runLoop expected rest).1
      rw [hs] at h
      dsimp only at h ⊢
      rw [h]
      exact ih

/-- C8: a dequeued buffer whose byte count differs from `iskip + isize`
terminates the session fatally right after the acquire: the trace of that
run is just the `get`, with no transform, recorder or network event. -/
theorem c8_bad_bytes_fatal (expected : ℕ) (e : IterEnv) (rest : List IterEnv)
    (h1 : e.stop = false) (h2 : e.getErr = none)
    (h3 : e.bytesused ≠ expected) :
    runLoop expected (e :: rest) = ([Ev.get e.bufIndex], Outcome.fatal) ∧
    Ev.paint ∉ (runLoop expected (e :: rest)).1 ∧
    Ev.record ∉ (runLoop expected (e :: rest)).1 ∧
    Ev.send ∉ (runLoop expected (e :: rest)).1 := by
  have hstep : iterStep expected e = ([Ev.get e.bufIndex], some .fatal) := by
    simp [iterStep, h1, h2, h3]
  refine ⟨?_, ?_, ?_, ?_⟩ <;> simp [runLoop, hstep]

/-- C8 witness: `c8_bad_bytes_fatal` at a concrete schedule (slot 3
dequeued with 17 bytes when 98304 + 98304 were expected). -/
theorem c8_bad_bytes_fatal_witness :
    runLoop 196608
        [⟨false, none, 3, 17, false, false, false, false, true, .nothing⟩] =
      ([Ev.get 3], Outcome.fatal) :=
  (c8_bad_bytes_fatal 196608
    ⟨false, none, 3, 17, false, false, false, false, true, .nothing⟩ []
    rfl rfl (by decide)).1

/-- C9: if `v4l2_get_buffer` fails with `errno == EINTR` the loop retries
(the iteration is a no-op and the run continues with the rest of the
schedule); any other `errno` on failure is fatal to the session. -/
theorem c9_eintr_retry (expected : ℕ) (e : IterEnv) (rest : List IterEnv)
    (errv : ℕ) (h1 : e.stop = false) (h2 : e.getErr = some errv) :
    (errv = EINTR → runLoop expected (e :: rest) = runLoop expected rest) ∧
    (errv ≠ EINTR → runLoop expected (e :: rest) = ([], Outcome.fatal)) := by
  constructor
  · intro hr
    have hstep : iterStep expected e = ([], none) := by
      simp [iterStep, h1, h2, hr]
    simp [runLoop, hstep]
  · intro hr
    have hstep : iterStep expected e = ([], some .fatal) := by
      simp [iterStep, h1, h2, hr]
    simp [runLoop, hstep]

/-- C9 witness: `c9_eintr_retry` instantiated at a concrete schedule, for
both an interrupted wait (`errno = EINTR = 4`, retried) and a real device
error (`errno = 5`, fatal). -/
theorem c9_eintr_retry_witness :
    runLoop 196608
        [⟨false, some 4, 0, 0, false, false, false, false, true, .nothing⟩] =
      runLoop 196608 [] ∧
    runLoop 196608
        [⟨false, some 5, 0, 0, false, false, false, false, true, .nothing⟩] =
      ([], Outcome.fatal) :=
  ⟨(c9_eintr_retry 196608
      ⟨false, some 4, 0, 0, false, false, false, false, true, .nothing⟩ []
      4 rfl rfl).1 rfl,
   (c9_eintr_retry 196608
      ⟨false, some 5, 0, 0, false, false, false, false, true, .nothing⟩ []
      5 rfl rfl).2 (by decide)⟩

/-! ### Whole-frame transform (paint_frame, src/sdl.c lines 620-699)

    for (i = 0; ...; i += 2) { v = ...; if (v > max) ...; if (v < min) ...; }
    if (c->scale_max || c->scale_min) { max = c->scale_max; min = c->scale_min; }
    if (min >= max) { memset(memptr, 0, width * height * 4); goto skippaint; }
    ... per-pixel normalization and BGRA packing ...

The colour post-processing (`getcolor`: contouring, gamma table, invert,
Turbo colormap) reads lookup tables from generated headers that are not part
of src/, so it is abstracted as an opaque per-channel function `gc`; the
claims settled here do not depend on it. -/

/-- The statistics scan of `paint_frame`: running minimum and maximum over
the samples, seeded with `min = UINT16_MAX`, `max = 0`. -/
def scanMinMax (samples : List ℕ) : ℕ × ℕ :=
  samples.foldl
    (fun mm v => (if v < mm.1 then v else mm.1, if v > mm.2 then v else mm.2))
    (65535, 0)

/-- Scale resolution from `paint_frame`: if either manual scale value is
nonzero the manual values replace the scanned ones. -/
def resolveScale (smin smax : ℕ) (samples : List ℕ) : ℕ × ℕ :=
  if smax ≠ 0 ∨ smin ≠ 0 then (smin, smax) else scanMinMax samples

/-- The BGRA image produced by one `paint_frame` call, as the final contents
of the locked texture.  Output pixel group `q` holds source pixel
`if rotate then n-1-q else q`, matching the source's
`output_index = (n - p)*4 - 4` (rotated) / `p*4` (unrotated) stores.
A degenerate resolved scale (`min >= max`) yields the `memset` branch. -/
def paintImage (gc : ℕ → ℕ → ℕ) (w h : ℕ) (rot : Bool) (smin smax : ℕ)
    (sample : ℕ → ℕ) : List ℕ :=
  let n := w * h
  let mm := resolveScale smin smax ((List.range n).map sample)
  if mm.2 ≤ mm.1 then List.replicate (w * h * 4) 0
  else
    (List.range n).flatMap fun q =>
      let p := if rot then n - 1 - q else q
      let pv := pval mm.1 mm.2 (sample p)
      [gc 0 pv, gc 1 pv, gc 2 pv, 255]

/-- C2: whenever the resolved scale satisfies `min >= max` (manual values
substituted when either is nonzero, else the scanned per-frame min/max),
the transform takes the `memset` branch: the output is exactly
`width*height*4` zero bytes, and the division `2^24 / (max - min)` in the
other branch is never evaluated. -/
theorem c2_degenerate_scale_blank (gc : ℕ → ℕ → ℕ) (w h : ℕ) (rot : Bool)
    (smin smax : ℕ) (sample : ℕ → ℕ)
    (hdeg : (resolveScale smin smax ((List.range (w * h)).map sample)).2 ≤
      (resolveScale smin smax ((List.range (w * h)).map sample)).1) :
    paintImage gc w h rot smin smax sample = List.replicate (w * h * 4) 0 ∧
    (paintImage gc w h rot smin smax sample).length = w * h * 4 := by
  constructor
  · simp only [paintImage]
    rw [if_pos hdeg]
  · simp only [paintImage]
    rw [if_pos hdeg]
    exact List.length_replicate _ _

/-- C2 witness: `c2_degenerate_scale_blank` on a concrete 2×2 frame with
manual scale `min = 2000 >= max = 1000`. -/
theorem c2_degenerate_scale_blank_witness :
    paintImage (fun _ v => v) 2 2 false 2000 1000 (fun _ => 1500) =
      List.replicate 16 0 :=
  (c2_degenerate_scale_blank (fun _ v => v) 2 2 false 2000 1000
    (fun _ => 1500) (by decide)).1

/-! ### 180° rotation (paint_frame, src/sdl.c lines 681-694)

    output_index = (c->desc->width * c->desc->height - i / 2) * 4 - 4;  -- rotated
    output_index = i / 2 * 4;                                           -- unrotated

with `p = i / 2` the pixel index. -/

/-- The byte index in the output image at which `paint_frame` stores the
4-byte BGRA group of source pixel `p` (of `n` total pixels). -/
def outIndex (n p : ℕ) (rot : Bool) : ℕ :=
  if rot then (n - p) * 4 - 4 else p * 4

/-- The rotation reindexing on frames of `n` pixels induced by the rotated
stores: output pixel `q` holds source pixel `n - 1 - q`. -/
def rotFrame {α : Type} (n : ℕ) (f : Fin n → α) : Fin n → α :=
  fun q => f ⟨n - 1 - q.val, by have := q.isLt; omega⟩

/-- C6: the 180° rotation is a pure array-order reversal and an involution:
pixel `p` of `n` is stored at output pixel `n - p - 1` (byte index
`(n - p - 1) * 4`), the rotated output is the reversed pixel array, and
applying the reindexing twice restores every frame. -/
theorem c6_rotation_involution {α : Type} (n p : ℕ) (hp : p < n)
    (f : Fin n → α) :
    outIndex n p true = (n - p - 1) * 4 ∧
    List.ofFn (rotFrame n f) = (List.ofFn f).reverse ∧
    rotFrame n (rotFrame n f) = f := by
  refine ⟨?_, ?_, ?_⟩
  · simp only [outIndex, if_pos]
    omega
  · apply List.ext_getElem
    · simp
    · intro q h1 h2
      simp only [List.length_ofFn] at h1
      simp only [List.getElem_ofFn, List.getElem_reverse, List.length_ofFn,
        rotFrame]
  · funext q
    have hq := q.isLt
    simp only [rotFrame]
    congr 1
    apply Fin.ext
    show n - 1 - (n - 1 - q.val) = q.val
    omega

/-- C6 witness: `c6_rotation_involution` on a concrete 4-pixel frame. -/
theorem c6_rotation_involution_witness :
    outIndex 4 1 true = (4 - 1 - 1) * 4 ∧
    List.ofFn (rotFrame 4 (fun q : Fin 4 => q.val)) =
      (List.ofFn (fun q : Fin 4 => q.val)).reverse ∧
    rotFrame 4 (rotFrame 4 (fun q : Fin 4 => q.val)) =
      (fun q : Fin 4 => q.val) :=
  c6_rotation_involution 4 1 (by decide) (fun q : Fin 4 => q.val)

/-! ### Crosshair movement (sdl_poll_one, src/sdl.c lines 515-541;
sdl_open, src/sdl.c lines 788-789)

    case SDL_SCANCODE_RIGHT:
        c->crosshair.x++;
        if (c->crosshair.x >= c->desc->width) c->crosshair.x = 0;
        break;
    ... (LEFT / UP / DOWN symmetric) ...

    c->crosshair.x = c->desc->width / 2;
    c->crosshair.y = c->desc->height / 2;

No other event handler writes the crosshair coordinates. -/

/-- Crosshair position (`SDL_Point` holds C `int` coordinates). -/
structure Crosshair where
  x : ℤ
  y : ℤ
deriving DecidableEq

/-- An input event as far as the crosshair is concerned: one of the four
arrow keys, or any other event (which leaves the crosshair unchanged). -/
inductive MoveKey
  | left
  | right
  | up
  | down
  | other
deriving DecidableEq

/-- The crosshair update performed by `sdl_poll_one` for one input event. -/
def moveCrosshair (w h : ℕ) (k : MoveKey) (c : Crosshair) : Crosshair :=
  match k with
  | .right =>
    let x := c.x + 1
    if x ≥ (w : ℤ) then ⟨0, c.y⟩ else ⟨x, c.y⟩
  | .left =>
    let x := c.x - 1
    if x < 0 then ⟨(w : ℤ) - 1, c.y⟩ else ⟨x, c.y⟩
  | .up =>
    let y := c.y - 1
    if y < 0 then ⟨c.x, (h : ℤ) - 1⟩ else ⟨c.x, y⟩
  | .down =>
    let y := c.y + 1
    if y ≥ (h : ℤ) then ⟨c.x, 0⟩ else ⟨c.x, y⟩
  | .other => c

/-- The initial crosshair from `sdl_open`: the frame centre. -/
def chInit (w h : ℕ) : Crosshair :=
  ⟨((w / 2 : ℕ) : ℤ), ((h / 2 : ℕ) : ℤ)⟩

/-- The crosshair is a valid pixel coordinate of a `w × h` frame. -/
def chInv (w h : ℕ) (c : Crosshair) : Prop :=
  0 ≤ c.x ∧ c.x < (w : ℤ) ∧ 0 ≤ c.y ∧ c.y < (h : ℤ)

instance (w h : ℕ) (c : Crosshair) : Decidable (chInv w h c) := by
  unfold chInv
  infer_instance

/-- C10: the crosshair starts at the frame centre (a valid coordinate for
any nonempty frame), every input event preserves
`0 ≤ x < width ∧ 0 ≤ y < height` (stepping past an edge wraps to the
opposite edge), and hence after any sequence of input events the crosshair
is a valid pixel coordinate. -/
theorem c10_crosshair_invariant (w h : ℕ) (hw : 1 ≤ w) (hh : 1 ≤ h) :
    chInv w h (chInit w h) ∧
    (∀ (c : Crosshair) (k : MoveKey),
      chInv w h c → chInv w h (moveCrosshair w h k c)) ∧
    (∀ ks : List MoveKey,
      chInv w h (ks.foldl (fun c k => moveCrosshair w h k c) (chInit w h))) := by
  have hinit : chInv w h (chInit w h) := by
    have h1 : w / 2 < w := Nat.div_lt_self (by omega) (by omega)
    have h2 : h / 2 < h := Nat.div_lt_self (by omega) (by omega)
    simp only [chInv, chInit]
    omega
  have hstep : ∀ (c : Crosshair) (k : MoveKey),
      chInv w h c → chInv w h (moveCrosshair w h k c) := by
    intro c k hc
    obtain ⟨hx0, hxw, hy0, hyh⟩ := hc
    cases k <;>
      first
        | exact ⟨hx0, hxw, hy0, hyh⟩
        | (simp only [moveCrosshair, chInv]
           split_ifs <;> refine ⟨?_, ?_, ?_, ?_⟩ <;> simp <;> omega)
  refine ⟨hinit, hstep, ?_⟩
  intro ks
  have haux : ∀ (l : List MoveKey) (c : Crosshair), chInv w h c →
      chInv w h (l.foldl (fun c' k => moveCrosshair w h k c') c) := by
    intro l
    induction l with
    | nil => intro c hc; exact hc
    | cons k rest ih =>
      intro c hc
      exact ih _ (hstep c k hc)
  exact haux ks _ hinit

/-- C10 witness: `c10_crosshair_invariant` on the 256×192 camera, with a
wrap-around key sequence from the centre. -/
theorem c10_crosshair_invariant_witness :
    chInv 256 192
      (([MoveKey.left, .left, .up, .down, .right].foldl
        (fun c k => moveCrosshair 256 192 k c) (chInit 256 192))) :=
  (c10_crosshair_invariant 256 192 (by decide) (by decide)).2.2
    [MoveKey.left, .left, .up, .down, .right]

/-! ### Fixed-point temperature conversion (src/sdl.c lines 62-153)

    struct temp_fixp { unsigned major : 12; unsigned minor : 6; unsigned sign : 1; };
    static const struct temp_fixp abszero = { .major = 273, .minor = 10 };

The bitfield stores reduce modulo 2^12 / 2^6; arithmetic on the fields is
performed after promotion to `int`, so intermediate differences can be
negative before being stored (modelled with `Int.emod`).  A `temp_fixp`
with sign bit `s` denotes `(-1)^s * (major + minor/64)` degrees;
`scaled320` below is that value times 320 (an integer, since the fields
carry 1/64 and the Fahrenheit tables 1/100 granularity: lcm 320). -/

/-- `python3 -c 'print([int(round(i / 64 * 100, 0)) for i in range(64)])'` -/
def b10lookup : List ℕ :=
  [0, 2, 3, 5, 6, 8, 9, 11, 12, 14, 16, 17, 19, 20, 22, 23,
   25, 27, 28, 30, 31, 33, 34, 36, 38, 39, 41, 42, 44, 45, 47, 48,
   50, 52, 53, 55, 56, 58, 59, 61, 62, 64, 66, 67, 69, 70, 72, 73,
   75, 77, 78, 80, 81, 83, 84, 86, 88, 89, 91, 92, 94, 95, 97, 98]

/-- `python3 -c 'print([int(round(i / 100 * 64, 0)) for i in range(100)])'` -/
def b10rev : List ℕ :=
  [0, 1, 1, 2, 3, 3, 4, 4, 5, 6, 6, 7, 8, 8, 9, 10, 10,
   11, 12, 12, 13, 13, 14, 15, 15, 16, 17, 17, 18, 19, 19, 20, 20, 21,
   22, 22, 23, 24, 24, 25, 26, 26, 27, 28, 28, 29, 29, 30, 31, 31, 32,
   33, 33, 34, 35, 35, 36, 36, 37, 38, 38, 39, 40, 40, 41, 42, 42, 43,
   44, 44, 45, 45, 46, 47, 47, 48, 49, 49, 50, 51, 51, 52, 52, 53, 54,
   54, 55, 56, 56, 57, 58, 58, 59, 60, 60, 61, 61, 62, 63, 63]

/-- `struct temp_fixp`: 12-bit integer part, 6-bit 1/64 fractional part,
sign bit. -/
structure TempFixp where
  major : ℕ
  minor : ℕ
  sign : Bool
deriving DecidableEq

/-- `raw_to_kelvin`: direct bit split of the 16-bit sample (`raw >> 6`
into the 12-bit field, `raw & 0x3F` into the 6-bit field). -/
def raw_to_kelvin (raw : ℕ) : TempFixp :=
  ⟨raw / 64 % 4096, raw % 64, false⟩

/-- `kelvin_to_celsius`: fixed-point subtraction against
`abszero = 273 + 10/64`.  Field arithmetic happens over `int` and is then
stored into the unsigned bitfields, hence the `emod 64` / `% 4096`; the
source adjusts the integer part by `ret.major++` (negative branch) and
`ret.major--` (positive branch) when the fractional subtraction wraps. -/
def kelvin_to_celsius (t : TempFixp) : TempFixp :=
  if t.major ≤ 273 then
    ⟨if ((((10 : ℤ) - (t.minor : ℤ))) % 64).toNat > 10 then
        ((273 - t.major) % 4096 + 1) % 4096
      else (273 - t.major) % 4096,
     ((((10 : ℤ) - (t.minor : ℤ))) % 64).toNat,
     true⟩
  else
    ⟨if ((((t.minor : ℤ) - 10)) % 64).toNat > t.minor then
        ((t.major - 273) % 4096 - 1) % 4096
      else (t.major - 273) % 4096,
     ((((t.minor : ℤ) - 10)) % 64).toNat,
     false⟩

/-- `celsius_to_fahrenheit`: hundredths-scale `×9/5`, offset by 32.00,
sign flip when a negative Celsius value crosses zero. -/
def celsius_to_fahrenheit (t : TempFixp) : TempFixp :=
  let tmp0 := (t.major * 100 + b10lookup.getD t.minor 0) * 9 / 5
  if t.sign then
    if tmp0 ≤ 3200 then
      ⟨(3200 - tmp0) / 100 % 4096, b10rev.getD ((3200 - tmp0) % 100) 0, false⟩
    else
      ⟨(tmp0 - 3200) / 100 % 4096, b10rev.getD ((tmp0 - 3200) % 100) 0, true⟩
  else
    ⟨(tmp0 + 3200) / 100 % 4096, b10rev.getD ((tmp0 + 3200) % 100) 0, t.sign⟩

/-- The signed value denoted by a `temp_fixp`, scaled by 320: exactly
`320 * (-1)^sign * (major + minor/64)`. -/
def scaled320 (t : TempFixp) : ℤ :=
  (if t.sign then -1 else 1) * ((t.major : ℤ) * 320 + (t.minor : ℤ) * 5)

/-- `(v/64 - 273.15625) * 9/5 + 32` in exact arithmetic, scaled by 320. -/
def realF320 (v : ℕ) : ℤ :=
  9 * ((v : ℤ) - 17482) + 10240

/-- Helper: `b10lookup` rounds `b/64` to hundredths within 8/1600 of a
unit: `|16 * b10lookup[b] - 25 * b| ≤ 8`. -/
theorem b10lookup_bound : ∀ b, b < 64 →
    25 * b ≤ 16 * b10lookup.getD b 0 + 8 ∧
    16 * b10lookup.getD b 0 ≤ 25 * b + 8 := by
  decide

/-- Helper: `b10rev` rounds hundredths to 1/64ths within 12/1600 of a
unit: `|25 * b10rev[h] - 16 * h| ≤ 12`. -/
theorem b10rev_bound : ∀ hh, hh < 100 →
    16 * hh ≤ 25 * b10rev.getD hh 0 + 12 ∧
    25 * b10rev.getD hh 0 ≤ 16 * hh + 12 := by
  decide

/-- Helper: wherever the Kelvin fixed point has integer part above 273 or
fractional part at most 10/64, the Kelvin→Celsius subtraction is exact:
the Celsius value, scaled by 320, is `5*v - 87410`, and the result fields
are in range for the Fahrenheit step. -/
theorem celsius_exact (v : ℕ) (hv : v < 65536)
    (hgood : 273 < v / 64 ∨ v % 64 ≤ 10) :
    scaled320 (kelvin_to_celsius (raw_to_kelvin v)) = 5 * (v : ℤ) - 87410 ∧
    (kelvin_to_celsius (raw_to_kelvin v)).major ≤ 750 ∧
    (kelvin_to_celsius (raw_to_kelvin v)).minor ≤ 63 := by
  have hmod : v / 64 % 4096 = v / 64 := by omega
  rcases Nat.lt_or_ge 273 (v / 64) with hM | hM
  · -- Kelvin integer part above 273: positive Celsius branch.
    rcases Nat.lt_or_ge (v % 64) 10 with hm | hm
    · -- fractional borrow: `ret.minor` wraps, `ret.major--`.
      simp only [raw_to_kelvin, kelvin_to_celsius]
      rw [if_neg (by omega), if_pos (by omega)]
      simp only [scaled320]
      rw [if_neg Bool.false_ne_true]
      refine ⟨?_, ?_, ?_⟩ <;> omega
    · simp only [raw_to_kelvin, kelvin_to_celsius]
      rw [if_neg (by omega), if_neg (by omega)]
      simp only [scaled320]
      rw [if_neg Bool.false_ne_true]
      refine ⟨?_, ?_, ?_⟩ <;> omega
  · -- Kelvin integer part at most 273: negative branch; the good region
    -- forces the fractional part at most 10, so no wrap occurs.
    have hm : v % 64 ≤ 10 := by
      rcases hgood with h | h
      · omega
      · exact h
    simp only [raw_to_kelvin, kelvin_to_celsius]
    rw [if_pos (by omega), if_neg (by omega)]
    simp only [scaled320]
    rw [if_pos trivial]
    refine ⟨?_, ?_, ?_⟩ <;> omega

/-- Helper: the hundredths-scale Fahrenheit conversion is within 196/320/25
of the exact affine map on the denoted value:
`|25 * scaled320 (celsius_to_fahrenheit t) - (45 * scaled320 t + 256000)| ≤ 196`. -/
theorem fahrenheit_close (t : TempFixp) (hmaj : t.major ≤ 750)
    (hmin : t.minor ≤ 63) :
    25 * scaled320 (celsius_to_fahrenheit t) -
      (45 * scaled320 t + 256000) ≤ 196 ∧
    -(196 : ℤ) ≤ 25 * scaled320 (celsius_to_fahrenheit t) -
      (45 * scaled320 t + 256000) := by
  obtain ⟨maj, mino, sgn⟩ := t
  simp only at hmaj hmin
  obtain ⟨hL1, hL2⟩ := b10lookup_bound mino (by omega)
  cases sgn with
  | false =>
    obtain ⟨hR1, hR2⟩ := b10rev_bound
      (((maj * 100 + b10lookup.getD mino 0) * 9 / 5 + 3200) % 100)
      (Nat.mod_lt _ (by omega))
    simp only [celsius_to_fahrenheit]
    rw [if_neg Bool.false_ne_true]
    simp only [scaled320]
    simp only [if_neg Bool.false_ne_true]
    have hm4 : ((maj * 100 + b10lookup.getD mino 0) * 9 / 5 + 3200) / 100 % 4096
        = ((maj * 100 + b10lookup.getD mino 0) * 9 / 5 + 3200) / 100 :=
      Nat.mod_eq_of_lt (by omega)
    rw [hm4]
    omega
  | true =>
    obtain ⟨hR1, hR2⟩ := b10rev_bound
      ((3200 - (maj * 100 + b10lookup.getD mino 0) * 9 / 5) % 100)
      (Nat.mod_lt _ (by omega))
    obtain ⟨hR3, hR4⟩ := b10rev_bound
      (((maj * 100 + b10lookup.getD mino 0) * 9 / 5 - 3200) % 100)
      (Nat.mod_lt _ (by omega))
    simp only [celsius_to_fahrenheit]
    rw [if_pos (by trivial)]
    split_ifs with hc
    · simp only [scaled320]
      rw [if_neg Bool.false_ne_true, if_pos (by trivial)]
      have hm4 : (3200 - (maj * 100 + b10lookup.getD mino 0) * 9 / 5) / 100 % 4096
          = (3200 - (maj * 100 + b10lookup.getD mino 0) * 9 / 5) / 100 :=
        Nat.mod_eq_of_lt (by omega)
      rw [hm4]
      omega
    · simp only [scaled320, if_true]
      have hm4 : ((maj * 100 + b10lookup.getD mino 0) * 9 / 5 - 3200) / 100 % 4096
          = ((maj * 100 + b10lookup.getD mino 0) * 9 / 5 - 3200) / 100 :=
        Nat.mod_eq_of_lt (by omega)
      rw [hm4]
      omega

/-- C3 counterexample: the claim fails as stated.  At `v = 17492`
(Kelvin 273 + 20/64, so the Celsius magnitude underflows) the code yields
+28.6875 °F against a true value of 32.28125 °F, an error of about 3.6
units; and at `v = 194` (where the Celsius step is exact) the rounding
error is 7/320 of a unit, which already exceeds 1/64 = 5/320.  "Within
1/64 unit" is `|scaled320 - realF320| ≤ 5` at scale 320. -/
theorem c3_counterexample :
    ¬ (|scaled320 (celsius_to_fahrenheit (kelvin_to_celsius
        (raw_to_kelvin 17492))) - realF320 17492| ≤ 5) ∧
    ¬ (|scaled320 (celsius_to_fahrenheit (kelvin_to_celsius
        (raw_to_kelvin 194))) - realF320 194| ≤ 5) := by
  constructor <;> decide

/-- C3 (amended): for every 16-bit raw sample `v` whose split
`(v >> 6, v & 63)` has integer part above 273 or fractional part at most
10/64 — i.e. exactly where `kelvin_to_celsius` does not take its faulty
negative-borrow adjustment — the composition
`celsius_to_fahrenheit (kelvin_to_celsius (raw_to_kelvin v))` is within
2/64 unit (10/320) of `(v/64 - 273.15625) * 9/5 + 32` in exact real
arithmetic. -/
theorem c3_temperature_bound_amended (v : ℕ) (hv : v < 65536)
    (hgood : 273 < v / 64 ∨ v % 64 ≤ 10) :
    |scaled320 (celsius_to_fahrenheit (kelvin_to_celsius
      (raw_to_kelvin v))) - realF320 v| ≤ 10 := by
  obtain ⟨hc, hmaj, hmin⟩ := celsius_exact v hv hgood
  obtain ⟨h1, h2⟩ := fahrenheit_close _ hmaj hmin
  rw [abs_le]
  unfold realF320
  omega

/-- C3 witness: `c3_temperature_bound_amended` at `v = 17482` (exactly
absolute zero in Celsius, Fahrenheit 32.00). -/
theorem c3_temperature_bound_amended_witness :
    |scaled320 (celsius_to_fahrenheit (kelvin_to_celsius
      (raw_to_kelvin 17482))) - realF320 17482| ≤ 10 :=
  c3_temperature_bound_amended 17482 (by decide) (by decide)

end Ircam
